import Mathlib

/-
Verification of `pymdownx/superfences.py` (SuperFences fenced-code scanner).

Lines are modelled as `List Char` (Python strings split on line boundaries).
Python exceptions are modelled by `Except PyExc`: the distinguished
`SuperFencesException` is `PyExc.superFences`, every other exception raised by
a host callback is `PyExc.other`.  Tab widths and indices are `Nat`; Python
slice indices that may be negative are `Int`.
-/

namespace Superfences

/-- A document line, as a list of characters. -/
abbrev Line := List Char

/-- Python exceptions, as observed by the scanner's `try`/`except` blocks:
`superFences` is the distinguished `SuperFencesException` (superfences.py line
79); `other` stands for any other `Exception`. -/
inductive PyExc where
  | superFences
  | other
deriving DecidableEq, Repr

/-- The backtick character (written via its code point to keep the source
free of literal backticks). -/
def backtick : Char := Char.ofNat 96

/-- `util.STX` of the host Markdown library (start of a placeholder). -/
def STX : Char := Char.ofNat 2

/-- `util.ETX` of the host Markdown library (end of a placeholder). -/
def ETX : Char := Char.ofNat 3

/-- Space or tab, the characters matched by `[ \t]` in the fence patterns. -/
def isSpaceTab (c : Char) : Bool := c == ' ' || c == '\t'

/-- ASCII whitespace as stripped by Python's `str.strip()` (the scanner only
ever strips lines made of spaces, tabs and line breaks, so the ASCII subset
of Python's whitespace definition is faithful here). -/
def isPySpace (c : Char) : Bool :=
  c == ' ' || c == '\t' || c == '\n' || c == '\r' || c == Char.ofNat 11 || c == Char.ofNat 12

/-- `s.strip() == ''` for a line: every character is whitespace. -/
def isBlank (l : Line) : Bool := l.all isPySpace

/-- `content.startswith((' ', '\t'))` (superfences.py line 423). -/
def startsWithSpaceTab : Line → Bool
  | [] => false
  | c :: _ => isSpaceTab c

/-- `PREFIX_CHARS = ('>', ' ', '\t')` (superfences.py line 42). -/
def isPrefixChar (c : Char) : Bool := c == '>' || c == ' ' || c == '\t'

/-- The character class `[\> ]` of `FENCED_BLOCK_RE` (superfences.py line 71). -/
def isQuoteSpace (c : Char) : Bool := c == '>' || c == ' '

/-- `str.expandtabs(tabLen)` starting from column `col`: a tab is replaced by
spaces up to the next multiple of `tabLen`; the column resets after a line
break; for `tabLen = 0` tabs are removed (CPython semantics). -/
def expandtabsAux (tabLen : Nat) : Line → Nat → Line
  | [], _ => []
  | c :: rest, col =>
    if c = '\t' then
      if 0 < tabLen then
        let pad := tabLen - col % tabLen
        List.replicate pad ' ' ++ expandtabsAux tabLen rest (col + pad)
      else
        expandtabsAux tabLen rest col
    else if c = '\n' ∨ c = '\r' then
      c :: expandtabsAux tabLen rest 0
    else
      c :: expandtabsAux tabLen rest (col + 1)

/-- `normalize_ws` (superfences.py lines 346-349): `text.expandtabs(tab_len)`. -/
def expandtabs (tabLen : Nat) (l : Line) : Line := expandtabsAux tabLen l 0

/-- `'\n'.join(lines)`. -/
def joinNL : List Line → Line
  | [] => []
  | [l] => l
  | l :: l' :: ls => l ++ '\n' :: joinNL (l' :: ls)

/-- `text.split('\n')`. -/
def splitNL : Line → List Line
  | [] => [[]]
  | c :: rest =>
    if c = '\n' then [] :: splitNL rest
    else
      match splitNL rest with
      | [] => [[c]]
      | r :: rs => (c :: r) :: rs

/-- `NESTED_FENCE_END = r'%s[ \t]*$'` (superfences.py line 68), compiled with
the exact opening fence string and applied with `re.match`: the content must
begin with the fence string and everything after it must be spaces or tabs. -/
def fenceEndMatch (fence : Line) (content : Line) : Bool :=
  fence.isPrefixOf content && (content.drop fence.length).all isSpaceTab

/-- The closing predicate stated by the claim (and §8 of the spec): a run of
at least `n` copies of the marker character followed only by spaces/tabs.
This definition follows the claim's words, not the source; it is compared
against `fenceEndMatch` (the source's test). -/
def specCloseRun (n : Nat) (c : Char) (content : Line) : Bool :=
  n ≤ (content.takeWhile (· == c)).length &&
    (content.dropWhile (· == c)).all isSpaceTab

/-- A formatter callback (an external collaborator, §6 of the spec): it
receives the dedented source (the other arguments — language, options,
classes, id, attributes — do not influence the scanner's control flow and
are abstracted away) and returns rendered markup, `none` (Python `None`),
or raises. -/
abbrev Formatter := Line → Except PyExc (Option Line)

/-- Key/value pairs (Python dictionaries are modelled as association lists
with unique keys, insertion ordered, see `dictInsert`). -/
abbrev Values := List (Line × Line)

/-- A validator callback: receives the language and the raw key/value inputs
and returns `(okay, options, attrs)` — the mutation of the `options`/`attrs`
dictionaries is modelled by returning them — or raises. -/
abbrev Validator := Line → Values → Except PyExc (Bool × Values × Values)

/-- One registered fence kind (the dictionaries built by
`extend_super_fences`, superfences.py lines 237-250).  Every entry built by
the source carries a validator, so the `entry.get("validator", default)`
fallback of lines 605/646 never fires and the field is total here. -/
structure FenceKind where
  name : Line
  test : Line → Bool
  formatter : Option Formatter
  validator : Validator

/-- The mutable per-fence scanner state (the fields assigned by `clear`,
superfences.py lines 395-411, plus `first`/`last` which `clear` does not
reset).  The compiled `fence_end` pattern is a function of `fence` and is
not stored separately (see `fenceEndTest`). -/
structure ScanState where
  ws : Line := []
  wsLen : Nat := 0
  wsVirtualLen : Nat := 0
  fence : Option Line := none
  lang : Line := []
  quoteLevel : Nat := 0
  code : List Line := []
  emptyLines : Nat := 0
  options : Values := []
  classes : List Line := []
  id : Line := []
  attrs : Values := []
  formatter : Option Formatter := none
  first : Line := []
  last : Line := []

/-- `clear` (superfences.py lines 395-411): reset every per-fence field
(`first` and `last` are not touched by `clear`). -/
def clearState (s : ScanState) : ScanState :=
  { s with
    ws := [], wsLen := 0, wsVirtualLen := 0, fence := none, lang := [],
    quoteLevel := 0, code := [], emptyLines := 0, options := [],
    classes := [], id := [], attrs := [], formatter := none }

/-- The extension-level stash (`CodeStash`, superfences.py lines 92-130):
placeholder key ↦ (original text, recorded virtual indent). -/
abbrev Stash := List (Line × Line × Nat)

/-- Python dictionary assignment `d[k] = v`: update in place if the key
exists, else append. -/
def dictInsert (d : Stash) (k : Line) (v : Line × Nat) : Stash :=
  if d.any (fun e => e.1 == k) then
    d.map (fun e => if e.1 == k then (k, v.1, v.2) else e)
  else d ++ [(k, v.1, v.2)]

/-- `CodeStash.get` (superfences.py lines 111-115) with the default `None`
modelled as `none`. -/
def stashGet (d : Stash) (k : Line) : Option (Line × Nat) :=
  (d.find? (fun e => e.1 == k)).map (fun e => e.2)

/-- `CodeStash.remove` (superfences.py lines 117-120). -/
def stashRemove (d : Stash) (k : Line) : Stash :=
  d.filter (fun e => !(e.1 == k))

/-- The whole preprocessor-visible state: the scanner state, the stack of
pending replacements (superfences.py line 822), the host `htmlStash`
counter, the extension stash, and the `start` index remembered when the
current fence opened (a local of `search_nested` that lives across lines). -/
structure Machine where
  scan : ScanState := {}
  stack : List (Line × Nat × Nat) := []
  htmlCounter : Nat := 0
  stash : Stash := []
  startIdx : Nat := 0

/-- `self.fence_end.match(content) is not None`: `fence_end` is the pattern
`NESTED_FENCE_END % self.fence` compiled when the fence opened
(superfences.py line 692); it is `none` only in the idle state, where the
evaluators are never invoked. -/
def fenceEndTest (s : ScanState) (content : Line) : Bool :=
  match s.fence with
  | some f => fenceEndMatch f content
  | none => false

/-- The closing test of the non-quoted path (superfences.py line 423):
`self.fence_end.match(content) is not None and not content.startswith((' ', '\t'))`. -/
def unquotedCloseTest (s : ScanState) (content : Line) : Bool :=
  fenceEndTest s content && !(startsWithSpaceTab content)

/-- The closing test of the blockquote path (superfences.py line 454):
`self.fence_end.match(content) is not None`. -/
def quotedCloseTest (s : ScanState) (content : Line) : Bool :=
  fenceEndTest s content

/-- `rebuild_block` (superfences.py lines 351-354): dedent every captured
line by the opener's virtual indentation (`line[self.ws_virtual_len:]`). -/
def rebuildBlock (wsVirtualLen : Nat) (lines : List Line) : Line :=
  joinNL (lines.map (fun line => line.drop wsVirtualLen))

/-- Decimal digits of a number, for placeholder keys. -/
def natDigits (n : Nat) : Line := Nat.toDigits 10 n

/-- The fixed text of the host's `HTML_PLACEHOLDER` between `STX` and `ETX`
(`wzxhzdk:%s` in the Markdown library), referenced by `FENCED_BLOCK_RE`. -/
def wzChars : Line := "wzxhzdk:".data

/-- The placeholder returned by `md.htmlStash.store` for the `n`-th stored
block: `STX ++ "wzxhzdk:<n>" ++ ETX`. -/
def placeholderOf (n : Nat) : Line := STX :: (wzChars ++ natDigits n ++ [ETX])

/-- The text recorded in the extension stash by `_store` (superfences.py
lines 826-830): `"%s\n%s%s" % (self.first, self.normalize_ws(source),
self.last)` where `process_nested_block` passes
`source = self.normalize_ws('\n'.join(self.code)) + '\n'` (line 486). -/
def storedOriginal (tabLen : Nat) (first lastLine : Line) (code : List Line) : Line :=
  first ++ '\n' :: (expandtabs tabLen (expandtabs tabLen (joinNL code) ++ ['\n']) ++ lastLine)

/-- `process_nested_block` together with `_store` (superfences.py lines
467-487 and 814-830).  On a formatter exception the partially mutated
machine (`self.last` was already assigned) is carried in the error so the
caller's `except` clause can model Python's persistent mutation. -/
def processNestedBlock (tabLen : Nat) (disabledIndented : Bool) (m : Machine)
    (ws content : Line) (start stop : Nat) : Except (PyExc × Machine) Machine :=
  let lastLine := ws ++ expandtabs tabLen content
  let s := { m.scan with last := lastLine }
  let m1 := { m with scan := s }
  match s.formatter with
  | none => .ok { m1 with scan := clearState s }
  | some f =>
    match f (rebuildBlock s.wsVirtualLen s.code) with
    | .error e => .error (e, m1)
    | .ok none => .ok { m1 with scan := clearState s }
    | .ok (some code) =>
      let placeholder := placeholderOf m1.htmlCounter
      let _ := code
      let newStack := m1.stack ++ [(s.ws ++ placeholder, start, stop)]
      let newStash :=
        if disabledIndented then m1.stash
        else dictInsert m1.stash (wzChars ++ natDigits m1.htmlCounter)
          (storedOriginal tabLen s.first lastLine s.code, s.wsVirtualLen)
      .ok { m1 with
        scan := clearState s, stack := newStack,
        htmlCounter := m1.htmlCounter + 1, stash := newStash }

/-- `eval_fence` (superfences.py lines 413-434): evaluate a line of an open
fence outside any blockquote. -/
def evalFence (tabLen : Nat) (disabledIndented : Bool) (m : Machine)
    (ws content : Line) (start stop : Nat) : Except PyExc Machine :=
  if isBlank (ws ++ content) then
    .ok { m with scan := { m.scan with
      emptyLines := m.scan.emptyLines + 1,
      code := m.scan.code ++ [ws ++ content] } }
  else if ws.length ≠ m.scan.wsVirtualLen ∧ content ≠ [] then
    .ok { m with scan := clearState m.scan }
  else if unquotedCloseTest m.scan content then
    match processNestedBlock tabLen disabledIndented m ws content start stop with
    | .error (.superFences, _) => .error .superFences
    | .error (.other, m1) => .ok { m1 with scan := clearState m1.scan }
    | .ok m1 => .ok m1
  else
    .ok { m with scan := { m.scan with
      emptyLines := 0,
      code := m.scan.code ++ [ws ++ content] } }

/-- `eval_quoted` (superfences.py lines 436-465): evaluate a line of a fence
opened inside a blockquote. -/
def evalQuoted (tabLen : Nat) (disabledIndented : Bool) (m : Machine)
    (ws content : Line) (quoteLevel start stop : Nat) : Except PyExc Machine :=
  if m.scan.quoteLevel < quoteLevel then
    .ok { m with scan := clearState m.scan }
  else if content = [] then
    .ok { m with scan := { m.scan with
      code := m.scan.code ++ [ws ++ content],
      emptyLines := m.scan.emptyLines + 1 } }
  else if ws.length < m.scan.wsLen then
    .ok { m with scan := clearState m.scan }
  else if m.scan.emptyLines ≠ 0 ∧ quoteLevel < m.scan.quoteLevel then
    .ok { m with scan := clearState m.scan }
  else if quotedCloseTest m.scan content then
    match processNestedBlock tabLen disabledIndented m ws content start stop with
    | .error (.superFences, _) => .error .superFences
    | .error (.other, m1) => .ok { m1 with scan := clearState m1.scan }
    | .ok m1 => .ok m1
  else
    .ok { m with scan := { m.scan with
      emptyLines := 0,
      code := m.scan.code ++ [ws ++ content] } }

/-- `parse_fence_line`'s collection loop (superfences.py lines 536-559):
walk prefix characters until the opener's virtual indentation is reached or
a non-prefix character appears, expanding tabs from the running column;
returns the expanded prefix and the count of raw characters consumed. -/
def parseFenceLineAux (tabLen target : Nat) : Line → Nat → Nat → Line × Nat
  | [], _, _ => ([], 0)
  | c :: rest, vlen, index =>
    if target ≤ vlen then ([], 0)
    else if ¬ (isPrefixChar c = true) then ([], 0)
    else if c = '\t' then
      let tabSize := tabLen - index % tabLen
      let r := parseFenceLineAux tabLen target rest (vlen + tabSize) (index + tabSize)
      (List.replicate tabSize ' ' ++ r.1, r.2 + 1)
    else
      let r := parseFenceLineAux tabLen target rest (vlen + 1) (index + 1)
      (c :: r.1, r.2 + 1)

/-- `parse_fence_line` (superfences.py lines 536-559): split a line into its
collected (tab-expanded) prefix and the remaining content. -/
def parseFenceLine (tabLen target : Nat) (line : Line) : Line × Line :=
  let r := parseFenceLineAux tabLen target line 0 0
  (r.1, line.drop r.2)

/-- `parse_whitespace` (superfences.py lines 561-576): the raw prefix run,
its raw length (`ws_len`) and its tab-expanded form whose length is
`ws_virtual_len`. -/
def parseWhitespace (tabLen : Nat) (line : Line) : Line × Nat × Nat :=
  let raw := line.takeWhile isPrefixChar
  let ws := expandtabs tabLen raw
  (ws, raw.length, ws.length)

/-- `line.rstrip('\r')` (superfences.py line 670). -/
def rstripCR (l : Line) : Line := (l.reverse.dropWhile (fun c => c == '\r')).reverse

/-- The in-fence branch of `search_nested` (superfences.py lines 696-721):
split the line, count its quote markers, and dispatch to `eval_quoted`,
`eval_fence`, or — a quote marker outside a blockquote-opened fence —
`clear`. -/
def fenceStep (tabLen : Nat) (disabledIndented : Bool) (m : Machine)
    (line : Line) (start count : Nat) : Except PyExc Machine :=
  let p := parseFenceLine tabLen m.scan.wsVirtualLen line
  let ws := p.1
  let content := p.2
  let stop := count + 1
  let quoteLevel := ws.count '>'
  if m.scan.quoteLevel ≠ 0 then
    evalQuoted tabLen disabledIndented m ws content quoteLevel start stop
  else if quoteLevel = 0 then
    evalFence tabLen disabledIndented m ws content start stop
  else
    .ok { m with scan := clearState m.scan }

/-- The line loop of `search_nested` (superfences.py lines 662-723).  The
idle branch (lines 671-695: `RE_NESTED_FENCE_START` plus option parsing and
the state initialisation on a successful open) is abstracted as the
parameter `openEval`; the in-fence branch is `fenceStep`, modelled exactly.
No exception is caught here, so an escaping `SuperFencesException`
terminates the whole pass. -/
def searchNestedLoop (tabLen : Nat) (disabledIndented : Bool)
    (openEval : Machine → Line → Nat → Except PyExc Machine) :
    List Line → Nat → Machine → Except PyExc Machine
  | [], _, m => .ok m
  | line :: rest, count, m =>
    let l := rstripCR line
    match (match m.scan.fence with
           | none => openEval m l count
           | some _ => fenceStep tabLen disabledIndented m l m.startIdx count) with
    | .error e => .error e
    | .ok m' => searchNestedLoop tabLen disabledIndented openEval rest (count + 1) m'

/-- `reassemble` (superfences.py lines 725-734): pop stack entries (most
recent first) and splice each rendered block over its consumed line range. -/
def reassembleGo : List (Line × Nat × Nat) → List Line → List Line
  | [], lines => lines
  | (fenced, start, stop) :: rest, lines =>
    reassembleGo rest (lines.take start ++ [fenced] ++ lines.drop stop)

/-- `reassemble`: `stack.pop()` takes the last element first. -/
def reassemble (stack : List (Line × Nat × Nat)) (lines : List Line) : List Line :=
  reassembleGo stack.reverse lines

/-- The validator-dispatch loop of `parse_options` (superfences.py lines
600-619), iterating the already-reversed registry: skip entries whose test
fails; a `SuperFencesException` from a validator re-raises; any other
exception leaves `okay` false (`pass`); after a validator returns, a
non-empty `attrs` dictionary forces `okay = False`; the first entry left
with `okay` true wins and binds its formatter and options. -/
def parseOptionsLoop (lang : Line) (values : Values) :
    List FenceKind → Except PyExc (Option (FenceKind × Values))
  | [] => .ok none
  | entry :: rest =>
    if entry.test lang then
      match entry.validator lang values with
      | .error .superFences => .error .superFences
      | .error .other => parseOptionsLoop lang values rest
      | .ok (okay, options, attrs) =>
        if okay && attrs.isEmpty then .ok (some (entry, options))
        else parseOptionsLoop lang values rest
    else parseOptionsLoop lang values rest

/-- `parse_options` (superfences.py lines 578-619) from the tokenized
key/value inputs onward: dispatch over `reversed(self.extension.superfences)`
and report `(okay, bound formatter entry, bound options)` — the source
assigns the winner to `self.formatter`/`self.options`. -/
def parse_options (registry : List FenceKind) (lang : Line) (values : Values) :
    Except PyExc (Bool × Option FenceKind × Values) :=
  match parseOptionsLoop lang values registry.reverse with
  | .error e => .error e
  | .ok none => .ok (false, none, [])
  | .ok (some (entry, options)) => .ok (true, some entry, options)

/-- The validator-dispatch loop of `handle_attrs` (superfences.py lines
641-660): identical to `parseOptionsLoop` except there is no `attrs` check —
on success the attributes are bound only when attribute-list support is
active (`if self.attr_list: self.attrs = attrs`), else they stay `{}`. -/
def handleAttrsLoop (attrList : Bool) (lang : Line) (values : Values) :
    List FenceKind → Except PyExc (Option (FenceKind × Values × Values))
  | [] => .ok none
  | entry :: rest =>
    if entry.test lang then
      match entry.validator lang values with
      | .error .superFences => .error .superFences
      | .error .other => handleAttrsLoop attrList lang values rest
      | .ok (okay, options, attrs) =>
        if okay then .ok (some (entry, options, if attrList then attrs else []))
        else handleAttrsLoop attrList lang values rest
    else handleAttrsLoop attrList lang values rest

/-- `handle_attrs` (superfences.py lines 621-660) from the id/class/value
partition onward: dispatch over the reversed registry and report
`(okay, bound entry, bound options, bound attrs)`. -/
def handle_attrs (attrList : Bool) (registry : List FenceKind) (lang : Line)
    (values : Values) : Except PyExc (Bool × Option FenceKind × Values × Values) :=
  match handleAttrsLoop attrList lang values registry.reverse with
  | .error e => .error e
  | .ok none => .ok (false, none, [], [])
  | .ok (some (entry, options, attrs)) => .ok (true, some entry, options, attrs)

/-- `extend_super_fences` (superfences.py lines 237-250): a kind named `*`
replaces position 0, any other kind is appended.  The registry is never
empty when a wildcard arrives (the default kind is inserted first); the
empty case is modelled as a plain insertion. -/
def extend_super_fences (registry : List FenceKind) (k : FenceKind) : List FenceKind :=
  if k.name == "*".data then
    match registry with
    | [] => [k]
    | _ :: rest => k :: rest
  else registry ++ [k]

/-- `FENCED_BLOCK_RE` (superfences.py lines 70-76):
`^([\> ]*)STX(wzxhzdk:([0-9]+))ETX$` applied to a single line; returns the
length of group 1 (the indent level) and group 2 (the stash key). -/
def fencedBlockMatch (line : Line) : Option (Nat × Line) :=
  let pre := line.takeWhile isQuoteSpace
  match line.drop pre.length with
  | [] => none
  | c :: rest =>
    if c = STX then
      if wzChars.isPrefixOf rest then
        let afterWz := rest.drop wzChars.length
        let digits := afterWz.takeWhile Char.isDigit
        if digits ≠ [] ∧ afterWz.drop digits.length = [ETX] then
          some (pre.length, wzChars ++ digits)
        else none
      else none
    else none

/-- Python slicing `l[i:]` for a possibly negative `i`. -/
def pySliceFrom (l : Line) (i : Int) : Line :=
  if 0 ≤ i then l.drop i.toNat else l.drop (l.length - (-i).toNat)

/-- `SuperFencesCodeBlockProcessor.reindent` (superfences.py lines 937-944):
for each line of the stashed text take `line[pos - level:]`, joining with
newlines. -/
def reindentCBP (text : Line) (pos level : Nat) : Line :=
  joinNL ((splitNL text).map (fun line => pySliceFrom line ((pos : Int) - (level : Int))))

/-- The line loop of `revert_greedy_fences` (superfences.py lines 946-970).
On a placeholder line `original, pos = self.extension.stash.get(key)` is
evaluated: for a missing key `get` returns Python `None` and the tuple
unpacking raises `TypeError` (modelled as `PyExc.other`) — the
`if original is None` fallback below it is unreachable, and stash values
are always pairs, so `original` is never `None` on the successful path. -/
def revertGreedyLines (stash : Stash) : List Line → Except PyExc (List Line × Stash)
  | [] => .ok ([], stash)
  | line :: rest =>
    match fencedBlockMatch line with
    | some (indentLevel, key) =>
      match stashGet stash key with
      | none => .error .other
      | some (original, pos) =>
        match revertGreedyLines (stashRemove stash key) rest with
        | .error e => .error e
        | .ok (out, st) => .ok (reindentCBP original pos indentLevel :: out, st)
    | none =>
      match revertGreedyLines stash rest with
      | .error e => .error e
      | .ok (out, st) => .ok (line :: out, st)

/-- `revert_greedy_fences` (superfences.py lines 946-970): scan
`block.split('\n')`, splice recovered originals over their placeholders,
and re-join with newlines; the updated stash is returned alongside. -/
def revert_greedy_fences (stash : Stash) (block : Line) : Except PyExc (Line × Stash) :=
  match revertGreedyLines stash (splitNL block) with
  | .error e => .error e
  | .ok (out, st) => .ok (joinNL out, st)

/-! Concrete objects used to instantiate theorems with hypotheses. -/

/-- A machine with an open 3-backtick fence at column 0 (no formatter). -/
def mC1 : Machine :=
  { scan := { fence := some (List.replicate 3 backtick), wsVirtualLen := 0 } }

/-- A validator that puts a key into the pass-through attributes map and
reports success. -/
def attrsProducingValidator : Validator :=
  fun _ _ => .ok (true, [], [("data-x".data, "1".data)])

/-- A fence kind whose validator produces pass-through attributes. -/
def attrsProducingKind : FenceKind :=
  { name := ['k'], test := fun _ => true, formatter := none,
    validator := attrsProducingValidator }

/-- A fence kind whose validator raises `SuperFencesException`. -/
def sfValidatorKind : FenceKind :=
  { name := ['s'], test := fun _ => true, formatter := none,
    validator := fun _ _ => .error .superFences }

/-- A fence kind whose validator raises an ordinary exception. -/
def otherValidatorKind : FenceKind :=
  { name := ['o'], test := fun _ => true, formatter := none,
    validator := fun _ _ => .error .other }

/-- A wildcard kind that accepts every language. -/
def wildcardKind : FenceKind :=
  { name := ['*'], test := fun _ => true, formatter := none,
    validator := fun _ _ => .ok (true, [], []) }

/-- A custom kind that accepts every language and validates successfully. -/
def customKind : FenceKind :=
  { name := ['c'], test := fun _ => true, formatter := none,
    validator := fun _ _ => .ok (true, [(['o'], ['1'])], []) }

/-- A formatter raising `SuperFencesException`. -/
def sfFormatter : Formatter := fun _ => .error .superFences

/-- A formatter raising an ordinary exception. -/
def otherFormatter : Formatter := fun _ => .error .other

/-- A machine with an open fence whose formatter raises the hard stop. -/
def mSF : Machine :=
  { scan := { fence := some (List.replicate 3 backtick), wsVirtualLen := 0,
              formatter := some sfFormatter } }

/-- A machine with an open fence whose formatter raises an ordinary error. -/
def mOther : Machine :=
  { scan := { fence := some (List.replicate 3 backtick), wsVirtualLen := 0,
              formatter := some otherFormatter } }

/-- A machine with a fence opened at quote depth 1 (prefix `"> "`). -/
def mQuoted : Machine :=
  { scan := { fence := some (List.replicate 3 backtick), quoteLevel := 1,
              wsLen := 2, wsVirtualLen := 2 } }

/-- A machine with a fence opened at indentation 4 outside any blockquote. -/
def mIndented : Machine :=
  { scan := { fence := some (List.replicate 3 backtick), quoteLevel := 0,
              wsLen := 4, wsVirtualLen := 4 } }

/-! Helper lemmas. -/

theorem splitNL_ne_nil (l : Line) : splitNL l ≠ [] := by
  match l with
  | [] => simp [splitNL]
  | c :: rest =>
    rw [splitNL]
    by_cases h : c = '\n'
    · simp [h]
    · simp only [h, if_false]
      cases hs : splitNL rest <;> simp

theorem joinNL_splitNL (l : Line) : joinNL (splitNL l) = l := by
  induction l with
  | nil => rfl
  | cons c rest ih =>
    rw [splitNL]
    by_cases h : c = '\n'
    · subst h
      simp only [if_pos rfl]
      cases hs : splitNL rest with
      | nil => exact absurd hs (splitNL_ne_nil rest)
      | cons r rs =>
        rw [hs] at ih
        simp [joinNL, ih]
    · simp only [h, if_false]
      cases hs : splitNL rest with
      | nil => exact absurd hs (splitNL_ne_nil rest)
      | cons r rs =>
        rw [hs] at ih
        cases rs with
        | nil => simp_all [joinNL]
        | cons r' rs' => simp_all [joinNL]

theorem splitNL_no_newline (l : Line) (h : ∀ c ∈ l, ¬ c = '\n') : splitNL l = [l] := by
  induction l with
  | nil => rfl
  | cons c rest ih =>
    rw [splitNL]
    have hc : ¬ c = '\n' := h c (by simp)
    simp only [hc, if_false]
    rw [ih (fun x hx => h x (by simp [hx]))]

theorem takeWhile_all_append (f : Char → Bool) (p : Line) (c : Char) (rest : Line)
    (hp : p.all f = true) (hc : f c = false) :
    (p ++ c :: rest).takeWhile f = p := by
  induction p with
  | nil => simp [List.takeWhile_cons, hc]
  | cons a as ih =>
    simp only [List.all_cons, Bool.and_eq_true] at hp
    simp [List.takeWhile_cons, hp.1, ih hp.2]

theorem pySliceFrom_zero (l : Line) : pySliceFrom l 0 = l := by
  simp [pySliceFrom]

theorem isPrefixOf_append_self (p t : Line) : p.isPrefixOf (p ++ t) = true := by
  induction p with
  | nil => simp [List.isPrefixOf]
  | cons a as ih => simp [List.isPrefixOf, ih]

theorem eq_append_drop_of_isPrefixOf (p l : Line) (h : p.isPrefixOf l = true) :
    l = p ++ l.drop p.length := by
  induction p generalizing l with
  | nil => simp
  | cons a as ih =>
    cases l with
    | nil => simp [List.isPrefixOf] at h
    | cons b bs =>
      simp only [List.isPrefixOf, Bool.and_eq_true, beq_iff_eq] at h
      obtain ⟨rfl, h2⟩ := h
      simpa using ih bs h2

theorem isSpaceTab_ne_marker {c r : Char} (hc : c = backtick ∨ c = '~')
    (hr : isSpaceTab r = true) : (r == c) = false := by
  simp only [isSpaceTab, Bool.or_eq_true, beq_iff_eq] at hr
  rcases hc with rfl | rfl <;> rcases hr with rfl | rfl <;> decide

theorem takeWhile_marker_run (c : Char) (n : Nat) (rest : Line)
    (hrest : rest.all isSpaceTab = true) (hc : c = backtick ∨ c = '~') :
    (List.replicate n c ++ rest).takeWhile (fun x => x == c) = List.replicate n c ∧
      (List.replicate n c ++ rest).dropWhile (fun x => x == c) = rest := by
  induction n with
  | zero =>
    simp only [List.replicate, List.nil_append]
    cases rest with
    | nil => simp
    | cons r rs =>
      simp only [List.all_cons, Bool.and_eq_true] at hrest
      have := isSpaceTab_ne_marker hc hrest.1
      simp [List.takeWhile_cons, List.dropWhile_cons, this]
  | succ k ih =>
    simp only [List.replicate, List.cons_append, List.takeWhile_cons, List.dropWhile_cons]
    simp [ih.1, ih.2]

theorem isBlank_of_spaces (l : Line) (h : l.all (fun c => c == ' ') = true) :
    isBlank l = true := by
  rw [isBlank, List.all_eq_true]
  intro c hc
  have := List.all_eq_true.mp h c hc
  simp only [beq_iff_eq] at this
  subst this
  rfl

/-! Claim theorems. -/

/-- Claim C1, counterexample: a fence opened with 3 backticks and a
subsequent line of 4 backticks (no trailing garbage).  The claim's closing
predicate (a run of at least N of the same marker followed only by
spaces/tabs) accepts this line, but the source's closing pattern
`NESTED_FENCE_END % fence` rejects it — `[ \t]*$` cannot match the fourth
backtick — and `eval_fence` captures the line as fence content instead of
closing the fence. -/
theorem c1_counterexample_longer_closer :
    specCloseRun 3 backtick (List.replicate 4 backtick) = true ∧
    fenceEndMatch (List.replicate 3 backtick) (List.replicate 4 backtick) = false ∧
    evalFence 4 false mC1 [] (List.replicate 4 backtick) 0 1 =
      .ok { mC1 with scan := { mC1.scan with
              emptyLines := 0, code := [List.replicate 4 backtick] } } :=
  ⟨by decide, by decide, rfl⟩

/-- Claim C1, amended: after its prefix, a line closes a fence opened with
`n ≥ 3` copies of marker `c` if and only if its leading run of `c` has
length exactly `n` (so runs longer than `n`, shorter than `n`, or of the
other marker never close) and everything after that run is spaces/tabs. -/
theorem c1_amended_exact_close (n : Nat) (c : Char) (content : Line)
    (hn : 3 ≤ n) (hc : c = backtick ∨ c = '~') :
    fenceEndMatch (List.replicate n c) content = true ↔
      (content.takeWhile (fun x => x == c)).length = n ∧
        (content.dropWhile (fun x => x == c)).all isSpaceTab = true := by
  constructor
  · intro h
    rw [fenceEndMatch, Bool.and_eq_true] at h
    obtain ⟨h1, h2⟩ := h
    have hdec := eq_append_drop_of_isPrefixOf _ _ h1
    rw [List.length_replicate] at hdec h2
    set t := content.drop n with ht
    have hrun := takeWhile_marker_run c n t h2 hc
    rw [hdec, hrun.1, hrun.2]
    exact ⟨List.length_replicate n c, h2⟩
  · intro ⟨h1, h2⟩
    have hall : ∀ x ∈ content.takeWhile (fun x => x == c), x = c := by
      intro x hx
      have := List.mem_takeWhile_imp hx
      simpa using this
    have hrep : content.takeWhile (fun x => x == c) = List.replicate n c :=
      List.eq_replicate_iff.mpr ⟨h1, hall⟩
    have hdec : content = List.replicate n c ++ content.dropWhile (fun x => x == c) := by
      rw [← hrep, List.takeWhile_append_dropWhile]
    rw [fenceEndMatch, Bool.and_eq_true]
    constructor
    · rw [hdec]; exact isPrefixOf_append_self _ _
    · rw [hdec, List.length_replicate]
      rw [show (List.replicate n c ++ content.dropWhile (fun x => x == c)).drop n
            = content.dropWhile (fun x => x == c) from by
        have := List.drop_left (List.replicate n c) (content.dropWhile (fun x => x == c))
        rwa [List.length_replicate] at this]
      exact h2

/-- Witness for `c1_amended_exact_close` at `n = 3`, `c` = backtick and the
content consisting of exactly three backticks and a space. -/
theorem c1_amended_exact_close_witness :
    fenceEndMatch (List.replicate 3 backtick) (List.replicate 3 backtick ++ [' ']) = true ↔
      ((List.replicate 3 backtick ++ [' ']).takeWhile (fun x => x == backtick)).length = 3 ∧
        ((List.replicate 3 backtick ++ [' ']).dropWhile (fun x => x == backtick)).all isSpaceTab = true :=
  c1_amended_exact_close 3 backtick (List.replicate 3 backtick ++ [' '])
    (by decide) (Or.inl rfl)

/-- Claim C2 (the claim is right, the code is wrong): on a placeholder line
whose key is absent from the stash, `revert_greedy_fences` evaluates
`original, pos = self.extension.stash.get(key)`; `get` returns `None`, the
tuple unpacking raises `TypeError`, and the `if original is None` fallback
the code's own comment describes (leave the line untouched) is unreachable.
The parallel `restore_raw_text` passes `get(key, (None, None))`, showing the
intended pattern.  Here: an empty stash and the block consisting of the
single placeholder line with key `wzxhzdk:7` raise instead of returning the
block unchanged. -/
theorem c2_stash_miss_raises :
    revert_greedy_fences [] (STX :: (wzChars ++ ['7', ETX])) = .error .other := rfl

/-- Claim C3, counterexample: with attribute-list support inactive and a
validator that reports success while placing a key into the pass-through
attributes map, the bracketed-attribute path (`handle_attrs`) reports
overall success and silently drops the attributes, while the option-string
path (`parse_options`) reports failure — the claim says both paths fail. -/
theorem c3_counterexample_bracketed_drop :
    handle_attrs false [attrsProducingKind] [] [] =
      .ok (true, some attrsProducingKind, [], []) ∧
    parse_options [attrsProducingKind] [] [] = .ok (false, none, []) :=
  ⟨rfl, rfl⟩

/-- Claim C3, amended: only the option-string path treats validator-produced
pass-through attributes as overall failure (and it does so unconditionally,
not only when attribute-list support is inactive); the bracketed path
accepts the entry, binding the attributes when attribute-list support is
active and silently dropping them when it is not. -/
theorem c3_amended_asymmetric_attrs (attrList : Bool) (entry : FenceKind)
    (rest : List FenceKind) (lang : Line) (values opts attrs : Values)
    (ht : entry.test lang = true)
    (hv : entry.validator lang values = .ok (true, opts, attrs))
    (ha : attrs ≠ []) :
    parseOptionsLoop lang values (entry :: rest) = parseOptionsLoop lang values rest ∧
    handleAttrsLoop attrList lang values (entry :: rest) =
      .ok (some (entry, opts, if attrList then attrs else [])) := by
  have hne : attrs.isEmpty = false := by
    cases attrs with
    | nil => exact absurd rfl ha
    | cons a as => rfl
  constructor
  · simp [parseOptionsLoop, ht, hv, hne]
  · simp [handleAttrsLoop, ht, hv]

/-- Witness for `c3_amended_asymmetric_attrs` with the concrete
attribute-producing kind and attribute-list support active. -/
theorem c3_amended_asymmetric_attrs_witness :
    parseOptionsLoop [] [] [attrsProducingKind] = parseOptionsLoop [] [] [] ∧
    handleAttrsLoop true [] [] [attrsProducingKind] =
      .ok (some (attrsProducingKind, [], [("data-x".data, "1".data)])) :=
  c3_amended_asymmetric_attrs true attrsProducingKind [] [] []
    [] [("data-x".data, "1".data)] rfl rfl (by decide)

/-- Claim C9: the closing test of the blockquote path (superfences.py line
454, the bare pattern match) accepts exactly when the closing test of the
non-quoted path (line 423, the pattern match conjoined with the line not
beginning with a space or tab) accepts — for every content string: a match
of the compiled closing pattern forces the first character to be the fence
marker, which is never a space or tab. -/
theorem c9_close_test_equivalence (s : ScanState) (n : Nat) (c : Char) (content : Line)
    (hf : s.fence = some (List.replicate n c))
    (hn : 0 < n) (hc : c = backtick ∨ c = '~') :
    quotedCloseTest s content = unquotedCloseTest s content := by
  rw [quotedCloseTest, unquotedCloseTest]
  cases hm : fenceEndTest s content with
  | false => simp
  | true =>
    simp only [fenceEndTest, hf, fenceEndMatch, Bool.and_eq_true] at hm
    have hdec := eq_append_drop_of_isPrefixOf _ _ hm.1
    have hstart : startsWithSpaceTab content = false := by
      cases n with
      | zero => exact absurd hn (by simp)
      | succ k =>
        rw [hdec]
        rcases hc with rfl | rfl <;> rfl
    simp [hstart]

/-- Witness for `c9_close_test_equivalence` at a 3-backtick fence and the
content consisting of three backticks. -/
theorem c9_close_test_equivalence_witness :
    quotedCloseTest mC1.scan (List.replicate 3 backtick) =
      unquotedCloseTest mC1.scan (List.replicate 3 backtick) :=
  c9_close_test_equivalence mC1.scan 3 backtick (List.replicate 3 backtick)
    rfl (by decide) (Or.inl rfl)

/-- Claim C4: for a fence opened at quote depth `d > 0`, `eval_quoted`
aborts (clears the state, emitting nothing) on any line whose quote depth
exceeds `d`, and whenever a line is captured as content its quote depth is
at most `d` — so by induction over the scan every captured line satisfies
the bound and the first violation aborts the block. -/
theorem c4_quote_depth_containment (tabLen : Nat) (dis : Bool) (m : Machine)
    (ws content : Line) (ql start stop : Nat)
    (hd : 0 < m.scan.quoteLevel) :
    (m.scan.quoteLevel < ql →
      evalQuoted tabLen dis m ws content ql start stop =
        .ok { m with scan := clearState m.scan }) ∧
    (∀ m', evalQuoted tabLen dis m ws content ql start stop = .ok m' →
      m'.scan.code = m.scan.code ++ [ws ++ content] → ql ≤ m.scan.quoteLevel) := by
  constructor
  · intro h
    simp only [evalQuoted]
    rw [if_pos h]
  · intro m' hev hcode
    by_cases h : m.scan.quoteLevel < ql
    · simp only [evalQuoted] at hev
      rw [if_pos h] at hev
      injection hev with h'
      rw [← h'] at hcode
      have hlen := congrArg List.length hcode
      simp only [clearState, List.length_append, List.length_cons, List.length_nil] at hlen
      omega
    · omega

/-- Witness for `c4_quote_depth_containment`: in `mQuoted` (opened at quote
depth 1), the line `>> x` (quote depth 2) aborts the fence, and the captured
line `> x` (quote depth 1) satisfies the bound. -/
theorem c4_quote_depth_containment_witness :
    evalQuoted 4 false mQuoted ['>', '>'] ['x'] 2 0 1 =
      .ok { mQuoted with scan := clearState mQuoted.scan } ∧
    (1 : Nat) ≤ mQuoted.scan.quoteLevel := by
  refine ⟨(c4_quote_depth_containment 4 false mQuoted ['>', '>'] ['x'] 2 0 1
    (by decide)).1 (by decide), ?_⟩
  exact (c4_quote_depth_containment 4 false mQuoted ['>', ' '] ['x'] 1 0 1 (by decide)).2
    { mQuoted with scan := { mQuoted.scan with emptyLines := 0, code := [['>', ' ', 'x']] } }
    rfl rfl

/-- Claim C5: in `eval_fence` (reached only outside blockquotes, so the
collected prefix consists of spaces), a non-blank line whose prefix is
shorter than the opener's virtual indentation aborts the fence: no
exception, the state is cleared to idle (`fence = none`), and the stack —
hence the output line sequence reassembled from it — is untouched. -/
theorem c5_shallow_indent_abort (tabLen : Nat) (dis : Bool) (m : Machine)
    (ws content : Line) (start stop : Nat)
    (hq : m.scan.quoteLevel = 0)
    (hsp : ws.all (fun c => c == ' ') = true)
    (hnb : isBlank (ws ++ content) = false)
    (hlt : ws.length < m.scan.wsVirtualLen) :
    evalFence tabLen dis m ws content start stop =
      .ok { m with scan := clearState m.scan } ∧
    (clearState m.scan).fence = none := by
  have hcne : content ≠ [] := by
    intro hce
    subst hce
    have hb : isBlank (ws ++ []) = true := by
      rw [List.append_nil]
      exact isBlank_of_spaces ws hsp
    rw [hb] at hnb
    exact Bool.noConfusion hnb
  refine ⟨?_, rfl⟩
  simp only [evalFence]
  rw [if_neg (by simp [hnb]), if_pos ⟨Nat.ne_of_lt hlt, hcne⟩]

/-- Witness for `c5_shallow_indent_abort`: a fence opened at virtual
indentation 4, with the non-blank line `  x` (indentation 2). -/
theorem c5_shallow_indent_abort_witness :
    evalFence 4 false mIndented [' ', ' '] ['x'] 0 1 =
      .ok { mIndented with scan := clearState mIndented.scan } :=
  (c5_shallow_indent_abort 4 false mIndented [' ', ' '] ['x'] 0 1
    rfl (by decide) (by decide) (by decide)).1

/-- Claim C7: after registering a custom (non-wildcard) kind it sits at the
end of the registry (`extend_super_fences`), so the reverse-order dispatch
of `parse_options` checks it before the wildcard at position 0; if its test
accepts the language and its validator succeeds (producing no pass-through
attributes), the custom kind and its options are bound — not the
wildcard's. -/
theorem c7_registry_precedence (wildcard custom : FenceKind) (mid : List FenceKind)
    (lang : Line) (values opts : Values)
    (hwname : wildcard.name = "*".data)
    (hcname : custom.name ≠ "*".data)
    (hwtest : wildcard.test lang = true)
    (hctest : custom.test lang = true)
    (hval : custom.validator lang values = .ok (true, opts, [])) :
    parse_options (extend_super_fences (wildcard :: mid) custom) lang values =
      .ok (true, some custom, opts) ∧ custom ≠ wildcard := by
  have hne : (custom.name == "*".data) = false := beq_eq_false_iff_ne.mpr hcname
  have hreg : extend_super_fences (wildcard :: mid) custom = (wildcard :: mid) ++ [custom] := by
    simp [extend_super_fences, hne]
  constructor
  · have hloop : parseOptionsLoop lang values (custom :: (mid.reverse ++ [wildcard])) =
        .ok (some (custom, opts)) := by
      simp [parseOptionsLoop, hctest, hval]
    rw [hreg]
    simp [parse_options, hloop]
  · intro h
    rw [h, hwname] at hcname
    exact hcname rfl

/-- Witness for `c7_registry_precedence` with a concrete wildcard kind and
a concrete later-registered custom kind, both accepting every language. -/
theorem c7_registry_precedence_witness :
    parse_options (extend_super_fences [wildcardKind] customKind) [] [] =
      .ok (true, some customKind, [(['o'], ['1'])]) ∧ customKind ≠ wildcardKind :=
  c7_registry_precedence wildcardKind customKind [] [] [] [(['o'], ['1'])]
    rfl (by decide) rfl rfl rfl

/-- Claim C10 (implicit): with a fence opened outside any blockquote
(`quote_level = 0`), `search_nested`'s dispatch sends any line whose
collected prefix contains a `>` marker to the `clear()` branch — the fence
is aborted immediately, regardless of the line's indentation, the state is
cleared, and the stack (hence the already-consumed lines in the output) is
untouched. -/
theorem c10_quote_marker_aborts (tabLen : Nat) (dis : Bool) (m : Machine)
    (line : Line) (start count : Nat) (fence : Line)
    (hf : m.scan.fence = some fence)
    (hq : m.scan.quoteLevel = 0)
    (hgt : 0 < List.count '>' (parseFenceLine tabLen m.scan.wsVirtualLen line).1) :
    fenceStep tabLen dis m line start count = .ok { m with scan := clearState m.scan } := by
  simp only [fenceStep]
  rw [if_neg (by simp [hq]), if_neg (by omega)]

/-- Witness for `c10_quote_marker_aborts`: the fence of `mIndented` (opened
at indentation 4, quote depth 0) is aborted by the line `> x`, whose
collected prefix contains a quote marker. -/
theorem c10_quote_marker_aborts_witness :
    fenceStep 4 false mIndented ('>' :: ' ' :: ['x']) 0 5 =
      .ok { mIndented with scan := clearState mIndented.scan } :=
  c10_quote_marker_aborts 4 false mIndented ('>' :: ' ' :: ['x']) 0 5
    (List.replicate 3 backtick) rfl rfl (by decide)

/-- Claim C6: exception routing.  (1) A validator raising
`SuperFencesException` re-raises out of the dispatch loop of
`parse_options`; (2) a validator raising any other exception is swallowed
and the entry is simply skipped (ordinary validation failure, scanning of
the remaining kinds continues); (3) a formatter raising
`SuperFencesException` at fence close propagates out of `eval_fence`; (4) a
formatter raising any other exception is swallowed and the in-progress
fence is abandoned (`clear`), scanning continuing normally; (5) the line
loop of `search_nested` catches nothing, so a `SuperFencesException` from
the in-fence step aborts the whole pass. -/
theorem c6_exception_routing :
    (∀ (lang : Line) (values : Values) (entry : FenceKind) (rest : List FenceKind),
      entry.test lang = true →
      entry.validator lang values = .error .superFences →
      parseOptionsLoop lang values (entry :: rest) = .error .superFences) ∧
    (∀ (lang : Line) (values : Values) (entry : FenceKind) (rest : List FenceKind),
      entry.test lang = true →
      entry.validator lang values = .error .other →
      parseOptionsLoop lang values (entry :: rest) = parseOptionsLoop lang values rest) ∧
    (∀ (tabLen : Nat) (dis : Bool) (m : Machine) (ws content : Line)
      (start stop : Nat) (f : Formatter),
      isBlank (ws ++ content) = false →
      ws.length = m.scan.wsVirtualLen →
      unquotedCloseTest m.scan content = true →
      m.scan.formatter = some f →
      f (rebuildBlock m.scan.wsVirtualLen m.scan.code) = .error .superFences →
      evalFence tabLen dis m ws content start stop = .error .superFences) ∧
    (∀ (tabLen : Nat) (dis : Bool) (m : Machine) (ws content : Line)
      (start stop : Nat) (f : Formatter),
      isBlank (ws ++ content) = false →
      ws.length = m.scan.wsVirtualLen →
      unquotedCloseTest m.scan content = true →
      m.scan.formatter = some f →
      f (rebuildBlock m.scan.wsVirtualLen m.scan.code) = .error .other →
      evalFence tabLen dis m ws content start stop =
        .ok { m with
          scan := clearState ({ m.scan with last := ws ++ expandtabs tabLen content }) }) ∧
    (∀ (tabLen : Nat) (dis : Bool)
      (openEval : Machine → Line → Nat → Except PyExc Machine)
      (m : Machine) (line : Line) (rest : List Line) (count : Nat) (fence : Line),
      m.scan.fence = some fence →
      fenceStep tabLen dis m (rstripCR line) m.startIdx count = .error .superFences →
      searchNestedLoop tabLen dis openEval (line :: rest) count m = .error .superFences) := by
  refine ⟨?_, ?_, ?_, ?_, ?_⟩
  · intro lang values entry rest ht hv
    simp [parseOptionsLoop, ht, hv]
  · intro lang values entry rest ht hv
    simp [parseOptionsLoop, ht, hv]
  · intro tabLen dis m ws content start stop f hnb hw hclose hfmt hex
    simp only [evalFence]
    rw [if_neg (by simp [hnb]), if_neg (fun h => h.1 hw), if_pos hclose]
    simp only [processNestedBlock, hfmt, hex]
  · intro tabLen dis m ws content start stop f hnb hw hclose hfmt hex
    simp only [evalFence]
    rw [if_neg (by simp [hnb]), if_neg (fun h => h.1 hw), if_pos hclose]
    simp only [processNestedBlock, hfmt, hex]
  · intro tabLen dis openEval m line rest count fence hf hstep
    simp only [searchNestedLoop, hf, hstep]

/-- Witness for `c6_exception_routing`: each conjunct applied to concrete
kinds, machines and formatters. -/
theorem c6_exception_routing_witness :
    parseOptionsLoop [] [] [sfValidatorKind] = .error .superFences ∧
    parseOptionsLoop [] [] [otherValidatorKind] = parseOptionsLoop [] [] [] ∧
    evalFence 4 false mSF [] (List.replicate 3 backtick) 0 1 = .error .superFences ∧
    evalFence 4 false mOther [] (List.replicate 3 backtick) 0 1 =
      .ok { mOther with
        scan := clearState ({ mOther.scan with
          last := [] ++ expandtabs 4 (List.replicate 3 backtick) }) } ∧
    searchNestedLoop 4 false (fun m _ _ => .ok m)
      [List.replicate 3 backtick] 0 mSF = .error .superFences := by
  refine ⟨?_, ?_, ?_, ?_, ?_⟩
  · exact c6_exception_routing.1 [] [] sfValidatorKind [] rfl rfl
  · exact c6_exception_routing.2.1 [] [] otherValidatorKind [] rfl rfl
  · exact c6_exception_routing.2.2.1 4 false mSF [] (List.replicate 3 backtick) 0 1
      sfFormatter (by decide) rfl rfl rfl rfl
  · exact c6_exception_routing.2.2.2.1 4 false mOther [] (List.replicate 3 backtick) 0 1
      otherFormatter (by decide) rfl rfl rfl rfl
  · exact c6_exception_routing.2.2.2.2 4 false (fun m _ _ => .ok m) mSF
      (List.replicate 3 backtick) [] 0 (List.replicate 3 backtick) rfl rfl

/-- Claim C8, round-trip law: the extension stash records the original
fenced text (`storedOriginal`, tabs pre-expanded) together with the
opener's virtual indentation `pos`; when the Block Recovery Pass finds the
placeholder at an indentation equal to that recorded amount, `reindent`
strips `pos - level = 0` characters from each stashed line, so the spliced
block reproduces the stashed original byte-for-byte (and the entry is
consumed). -/
theorem c8_reindent_roundtrip (tabLen pos : Nat) (first lastLine : Line)
    (code : List Line) (digits pre : Line)
    (hpre : pre.all isQuoteSpace = true)
    (hlen : pre.length = pos)
    (hdig : digits ≠ [])
    (hdigits : digits.all Char.isDigit = true) :
    revert_greedy_fences
        [(wzChars ++ digits, storedOriginal tabLen first lastLine code, pos)]
        (pre ++ STX :: (wzChars ++ (digits ++ [ETX]))) =
      .ok (storedOriginal tabLen first lastLine code, []) := by
  have hnonl : ∀ c ∈ pre ++ STX :: (wzChars ++ (digits ++ [ETX])), ¬ c = '\n' := by
    intro c hcm he
    subst he
    rw [List.mem_append, List.mem_cons, List.mem_append, List.mem_append] at hcm
    rcases hcm with hc | hc | hc | hc | hc
    · exact absurd (List.all_eq_true.mp hpre _ hc) (by decide)
    · exact absurd hc (by decide)
    · exact absurd hc (by decide)
    · exact absurd (List.all_eq_true.mp hdigits _ hc) (by decide)
    · exact absurd hc (by decide)
  have hsplit := splitNL_no_newline _ hnonl
  have hstx : isQuoteSpace STX = false := by decide
  have hmatch : fencedBlockMatch (pre ++ STX :: (wzChars ++ (digits ++ [ETX]))) =
      some (pre.length, wzChars ++ digits) := by
    have h1 : (pre ++ STX :: (wzChars ++ (digits ++ [ETX]))).takeWhile isQuoteSpace = pre :=
      takeWhile_all_append isQuoteSpace pre STX (wzChars ++ (digits ++ [ETX])) hpre hstx
    have h2 : wzChars.isPrefixOf (wzChars ++ (digits ++ [ETX])) = true :=
      isPrefixOf_append_self wzChars (digits ++ [ETX])
    have hdtake : (digits ++ [ETX]).takeWhile Char.isDigit = digits :=
      takeWhile_all_append Char.isDigit digits ETX [] hdigits (by decide)
    simp [fencedBlockMatch, h1, List.drop_left, h2, hdtake, hdig]
  have hget : stashGet
      [(wzChars ++ digits, storedOriginal tabLen first lastLine code, pos)]
      (wzChars ++ digits) = some (storedOriginal tabLen first lastLine code, pos) := by
    simp [stashGet, List.find?]
  have hrem : stashRemove
      [(wzChars ++ digits, storedOriginal tabLen first lastLine code, pos)]
      (wzChars ++ digits) = [] := by
    simp [stashRemove, List.filter]
  have hreindent : reindentCBP (storedOriginal tabLen first lastLine code) pos pre.length =
      storedOriginal tabLen first lastLine code := by
    rw [reindentCBP, hlen]
    have hfun : (fun line => pySliceFrom line ((pos : Int) - (pos : Int))) =
        fun line : Line => line := by
      funext l
      rw [Int.sub_self]
      exact pySliceFrom_zero l
    rw [hfun, List.map_id', joinNL_splitNL]
  have hrev : revertGreedyLines
      [(wzChars ++ digits, storedOriginal tabLen first lastLine code, pos)]
      [pre ++ STX :: (wzChars ++ (digits ++ [ETX]))] =
      .ok ([storedOriginal tabLen first lastLine code], []) := by
    simp only [revertGreedyLines, hmatch, hget, hrem, hreindent]
  simp only [revert_greedy_fences, hsplit, hrev, joinNL]

/-- Witness for `c8_reindent_roundtrip`: a fence captured at virtual
indentation 2 inside a blockquote prefix `"> "`, stashed under key
`wzxhzdk:0`, is reproduced byte-for-byte. -/
theorem c8_reindent_roundtrip_witness :
    revert_greedy_fences
        [(wzChars ++ ['0'], storedOriginal 4 ("  x".data) ("  y".data) ["  a".data], 2)]
        (['>', ' '] ++ STX :: (wzChars ++ (['0'] ++ [ETX]))) =
      .ok (storedOriginal 4 ("  x".data) ("  y".data) ["  a".data], []) :=
  c8_reindent_roundtrip 4 2 ("  x".data) ("  y".data) ["  a".data] ['0'] ['>', ' ']
    (by decide) (by decide) (by decide) (by decide)

end Superfences
